import Mathlib

/-!
Verification of the bitcoin price prediction/analysis pipeline
(`data_helper.py`, `technical_analysis.py`, `main.py`) against its
natural-language specification.

Modelling conventions for the shallow embedding:
* Prices and all numeric cell values are `ℚ`.  The pandas float operations
  used by the claims (sums, means, division with the special cases
  `0/0 → NaN` and `x/0 → ±inf` for `x ≠ 0`, `fillna`) are embedded
  exactly: an undefined ("NaN") cell is `Option.none`, the `inf` case of
  `avg_gain / avg_loss` is handled by an explicit case split inside
  `rsiCell`, and NaN-propagating arithmetic uses `nanMul`/`nanAdd`.
* Timestamps are integer day numbers (days since 1970-01-01); the input
  series is daily data, and every date the code manipulates is a midnight
  datetime, so `(a - b).days` is exact integer subtraction.
* A pandas operation that raises is embedded as `Except String`.
-/

namespace Btc

/-- One input price bar.  Fields are the CSV columns used by the code;
`timestamp` is the integer day number. -/
structure Bar where
  timestamp : ℤ
  open' : ℚ
  high : ℚ
  low : ℚ
  close : ℚ
  volume : ℚ
deriving Repr, DecidableEq

/-- `Series.mean()` over a list of rationals: pandas returns NaN (`none`)
for an empty list, otherwise the arithmetic mean. -/
def meanQ (xs : List ℚ) : Option ℚ :=
  if xs.isEmpty then none else some (xs.sum / xs.length)

/-- The cell at row `i` of `Series.rolling(window=w).mean()`: NaN until the
trailing window of `w` rows is complete, then the mean of rows
`i+1-w, …, i`. -/
def rollingMeanCell (w : Nat) (xs : List ℚ) (i : Nat) : Option ℚ :=
  if w ≤ i + 1 then some (((xs.take (i + 1)).drop (i + 1 - w)).sum / w) else none

/-- The cell at row `i` of `Series.shift(k)`: NaN for the first `k` rows,
then the value `k` rows earlier. -/
def shiftCell (k : Nat) (xs : List ℚ) (i : Nat) : Option ℚ :=
  if i < k then none else xs.get? (i - k)

/-- Sample variance (ddof = 1, the pandas default) of a list. -/
def sampleVarQ (xs : List ℚ) : ℚ :=
  (xs.map (fun x => (x - xs.sum / xs.length) ^ 2)).sum / (xs.length - 1 : ℚ)

/-- Definedness pattern of the cell at row `i` of
`Series.rolling(window=w).std()`.  The source's cell is the square root of
this sample variance; the square root of a defined non-negative rational is
defined, so `Option.isSome` of this cell agrees with the source's, which is
all `dropna` (the only consumer in the claims) inspects. -/
def rollingStdCell (w : Nat) (xs : List ℚ) (i : Nat) : Option ℚ :=
  if w ≤ i + 1 then some (sampleVarQ ((xs.take (i + 1)).drop (i + 1 - w))) else none

/-- NaN-propagating multiplication on `Option ℚ` (`NaN * x = NaN`). -/
def nanMul (a b : Option ℚ) : Option ℚ :=
  match a, b with
  | some x, some y => some (x * y)
  | _, _ => none

/-- NaN-propagating addition on `Option ℚ` (`NaN + x = NaN`). -/
def nanAdd (a b : Option ℚ) : Option ℚ :=
  match a, b with
  | some x, some y => some (x + y)
  | _, _ => none

/-- `df.iloc[-1]`: the last row, raising `IndexError` on an empty frame. -/
def ilocLast (xs : List α) : Except String α :=
  match xs.getLast? with
  | some x => Except.ok x
  | none => Except.error "single positional indexer is out-of-bounds"

/-- `pd.date_range(start, periods)` with a non-negative period count:
`periods` consecutive day numbers starting at `start`. -/
def dateRange (start : ℤ) (periods : Nat) : List ℤ :=
  (List.range periods).map (fun i : Nat => start + (i : ℤ))

/-- `pd.date_range(start, periods)` where `periods` is a possibly negative
integer: pandas raises `ValueError` when the number of samples is
negative. -/
def dateRangeZ (start : ℤ) (periods : ℤ) : Except String (List ℤ) :=
  if periods < 0 then Except.error "Number of samples must be non-negative"
  else Except.ok (dateRange start periods.toNat)

/-- `frame[col] = vals`: assigning a column to a frame with `nrows` rows
raises `ValueError` when the lengths disagree. -/
def setColumn (nrows : Nat) (vals : List α) : Except String (List α) :=
  if vals.length = nrows then Except.ok vals
  else Except.error "Length of values does not match length of index"

/-! ## `technical_analysis.py` -/

/-- The `gain` array of `relative_strength_idx`: `np.where(delta > 0, delta, 0)`
where `delta = close.diff()`.  `delta[0]` is NaN and `NaN > 0` is false, so
row 0 is 0. -/
def gains (close : List ℚ) : List ℚ :=
  (List.range close.length).map fun i =>
    match i with
    | 0 => 0
    | Nat.succ j =>
      let d := close.getD (j + 1) 0 - close.getD j 0
      if 0 < d then d else 0

/-- The `loss` array of `relative_strength_idx`: `np.where(delta < 0, -delta, 0)`. -/
def losses (close : List ℚ) : List ℚ :=
  (List.range close.length).map fun i =>
    match i with
    | 0 => 0
    | Nat.succ j =>
      let d := close.getD (j + 1) 0 - close.getD j 0
      if d < 0 then -d else 0

/-- One cell of the RSI column, embedding the pandas float semantics of
`rs = avg_gain / avg_loss; rsi = 100 - 100/(1+rs); rsi.fillna(50)`:
* incomplete window: `avg_gain`/`avg_loss` are NaN, so `rsi` is NaN,
  filled with 50;
* `avg_loss = 0`, `avg_gain = 0`: `rs = 0/0 = NaN`, filled with 50;
* `avg_loss = 0`, `avg_gain ≠ 0` (necessarily positive): `rs = +inf`,
  `rsi = 100 - 100/inf = 100`;
* otherwise the finite formula. -/
def rsiCell (close : List ℚ) (n i : Nat) : ℚ :=
  match rollingMeanCell n (gains close) i, rollingMeanCell n (losses close) i with
  | some g, some l =>
    if l = 0 then (if g = 0 then 50 else 100) else 100 - 100 / (1 + g / l)
  | _, _ => 50

/-- `TechnicalAnalysis.relative_strength_idx(df, n)`: the RSI column, one
value per input row. -/
def relative_strength_idx (close : List ℚ) (n : Nat) : List ℚ :=
  (List.range close.length).map (rsiCell close n)

/-! ## `data_helper.py` -/

/-- `DataHelper.halving_dates()`: the five hardcoded halving datetimes,
as (calendar year, day number) pairs.  The day numbers are those of
2012-11-28, 2016-07-09, 2020-05-11, 2024-05-12 and 2028-05-12. -/
def halving_dates : List (Nat × ℤ) :=
  [(2012, 15672), (2016, 16991), (2020, 18393), (2024, 19855), (2028, 21316)]

/-- `DataHelper.get_halving_date(year)`: the first hardcoded date whose
calendar year matches, else a `ValueError`. -/
def get_halving_date (year : Nat) : Except String ℤ :=
  match halving_dates.find? (fun p => p.1 = year) with
  | some p => Except.ok p.2
  | none => Except.error "No halving date found for the year"

/-- `DataHelper.days_since_last_halving(current_date)`: 0 when no halving
date is strictly earlier, else the day count since the latest earlier one. -/
def days_since_last_halving (current_date : ℤ) : ℤ :=
  match ((halving_dates.map Prod.snd).filter (fun d => d < current_date)).max? with
  | none => 0
  | some last => current_date - last

/-- `data['close'].max()` for the non-empty series the claims quantify
over.  (pandas returns NaN on an empty series; the `[]` branch is a
placeholder never reached under the claims' non-emptiness hypotheses.) -/
def maxClose (close : List ℚ) : ℚ :=
  match close with
  | [] => 0
  | c :: cs => cs.foldl max c

/-- The near-all-time-high band test of `data_helper.py`:
`close > all_time_high - threshold` with `threshold = all_time_high * 0.05`
(strict comparison). -/
def nearATHBand (close : List ℚ) (c : ℚ) : Bool :=
  decide (maxClose close - maxClose close * (5 / 100) < c)

/-- `pct_changes[data['close'] > (all_time_high - threshold)]`:
`pct_changes = close.pct_change().dropna()` is indexed by 1, …, N−1 and the
boolean mask `close > ath - threshold` (indexed 0, …, N−1) is aligned on
that index, so change `i` (from bar `i−1` to bar `i`) is kept exactly when
bar `i` — the ending bar of the pair — lies in the band. -/
def at_high_pct_changes (close : List ℚ) : List ℚ :=
  (List.range close.length).filterMap fun i =>
    match i with
    | 0 => none
    | Nat.succ j =>
      if nearATHBand close (close.getD (j + 1) 0)
      then some (close.getD (j + 1) 0 / close.getD j 0 - 1)
      else none

/-- `avg_pct_change_at_high = at_high_pct_changes.mean()` (NaN = `none`
when no change survives the band restriction). -/
def avg_pct_change_at_high (close : List ℚ) : Option ℚ :=
  meanQ (at_high_pct_changes close)

/-- Modelled from the spec's words (§4.4 step 3), for comparison with the
code's `at_high_pct_changes`: restrict the percentage changes to those
whose *starting* bar (the earlier bar of the pair) falls in the band. -/
def at_high_pct_changes_spec (close : List ℚ) : List ℚ :=
  (List.range close.length).filterMap fun i =>
    match i with
    | 0 => none
    | Nat.succ j =>
      if nearATHBand close (close.getD j 0)
      then some (close.getD (j + 1) 0 / close.getD j 0 - 1)
      else none

/-- The average of the spec-worded restriction of percentage changes. -/
def avg_pct_change_at_high_spec (close : List ℚ) : Option ℚ :=
  meanQ (at_high_pct_changes_spec close)

/-- The future-value iteration
`future_values = [seed]; for _ in …: future_values.append(last * (1 + avg))`
written head-first: element 0 is `v` and each later element multiplies its
predecessor by `ratio` (`none` = NaN, propagated by `nanMul`).  Produces
`k + 1` values. -/
def futureFrom (v : Option ℚ) (ratio : Option ℚ) : Nat → List (Option ℚ)
  | 0 => [v]
  | k + 1 => v :: futureFrom (nanMul v ratio) ratio k

/-- The `future_values` list built for one feature: seeded with the
feature's last value, then one `* (1 + avg_pct_change_at_high)` step per
iteration of `range(1, days)` (so `max 0 (days - 1)` steps). -/
def futureValues (seed : ℚ) (ratio : Option ℚ) (days : ℤ) : List (Option ℚ) :=
  futureFrom (some seed) ratio (days - 1).toNat

/-- `DataHelper.generate_future_features(data, features, days)`.  A feature
is modelled as a column accessor `Bar → ℚ`; the result is the future date
index together with one value column per feature.  `1 + avg` is NaN when
`avg` is (`Option.map`), and assigning a column whose length differs from
the index length raises, exactly as pandas does. -/
def generate_future_features (data : List Bar) (features : List (Bar → ℚ))
    (days : Nat) : Except String (List ℤ × List (List (Option ℚ))) :=
  match ilocLast data with
  | Except.error e => Except.error e
  | Except.ok lastBar =>
    match (features.map (fun f => f lastBar)).mapM
        (fun seed =>
          setColumn days
            (futureValues seed
              ((avg_pct_change_at_high (data.map Bar.close)).map (fun a => 1 + a)) days)) with
    | Except.error e => Except.error e
    | Except.ok cols => Except.ok (dateRange (lastBar.timestamp + 1) days, cols)

/-- `DataHelper.generate_features_to_halving(data, features)`: same
compounding rule, but the horizon is
`(get_halving_date(2024) - last_known_date).days`, which may be zero or
negative; `pd.date_range` raises on a negative period count and the column
assignment raises on the zero-horizon length mismatch. -/
def generate_features_to_halving (data : List Bar) (features : List (Bar → ℚ)) :
    Except String (List ℤ × List (List (Option ℚ))) :=
  match ilocLast data with
  | Except.error e => Except.error e
  | Except.ok lastBar =>
    match get_halving_date 2024 with
    | Except.error e => Except.error e
    | Except.ok halvingDate =>
      match dateRangeZ (lastBar.timestamp + 1) (halvingDate - lastBar.timestamp) with
      | Except.error e => Except.error e
      | Except.ok dates =>
        match (features.map (fun f => f lastBar)).mapM
            (fun seed =>
              setColumn dates.length
                (futureValues seed
                  ((avg_pct_change_at_high (data.map Bar.close)).map (fun a => 1 + a))
                  (halvingDate - lastBar.timestamp))) with
        | Except.error e => Except.error e
        | Except.ok cols => Except.ok (dates, cols)

/-! ## `main.py` -/

/-- `btc_data['volatility'] = btc_data['high'] - btc_data['low']`. -/
def volatility (b : Bar) : ℚ := b.high - b.low

/-- The near-all-time-high filter of `main.py`:
`btc_data[btc_data['close'] >= (max_historical_price - threshold)]`
(non-strict comparison, unlike `data_helper.py`). -/
def near_ath_data (bars : List Bar) : List Bar :=
  bars.filter fun b =>
    decide (maxClose (bars.map Bar.close) - maxClose (bars.map Bar.close) * (5 / 100) ≤ b.close)

/-- `ath_average_volatility = near_ath_data['volatility'].mean()`. -/
def ath_average_volatility (bars : List Bar) : Option ℚ :=
  meanQ ((near_ath_data bars).map volatility)

/-- `increment = ath_average_volatility * 0.1` (NaN-propagating). -/
def increment (bars : List Bar) : Option ℚ :=
  (ath_average_volatility bars).map (fun v => v * (1 / 10))

/-- The arithmetic iteration
`prices = [seed]; for _ in …: prices.append(prices[-1] + inc)` written
head-first: `k + 1` values, each later one adding `inc` to its
predecessor. -/
def arithFrom (v : Option ℚ) (inc : Option ℚ) : Nat → List (Option ℚ)
  | 0 => [v]
  | k + 1 => v :: arithFrom (nanAdd v inc) inc k

/-- `estimated_future_prices`: seeded with the all-time-high close, then
one `+ increment` step per iteration of `range(1, 365 * 7)`, i.e. 2554
steps for 2555 values in all. -/
def estimated_future_prices (bars : List Bar) : List (Option ℚ) :=
  arithFrom (some (maxClose (bars.map Bar.close))) (increment bars) (365 * 7 - 1)

/-- Whether row `i` of the fully enriched frame survives
`btc_data.dropna()`.  The original CSV columns, `volatility`,
`days_since_halving` and `rsi` (NaN-filled) are always defined; the
possibly-NaN cells are `open_ma_7` (7-row rolling mean of `open`),
`lagged_close_k` for k ∈ {1,3,7,14,30} (shifts) and
`rolling_mean_w`/`rolling_std_w` for w ∈ {7,14,30}. -/
def keptRow (bars : List Bar) (i : Nat) : Bool :=
  let close := bars.map Bar.close
  (rollingMeanCell 7 (bars.map Bar.open') i).isSome &&
  ((relative_strength_idx close 14).get? i).isSome &&
  (shiftCell 1 close i).isSome &&
  (shiftCell 3 close i).isSome &&
  (shiftCell 7 close i).isSome &&
  (shiftCell 14 close i).isSome &&
  (shiftCell 30 close i).isSome &&
  (rollingMeanCell 7 close i).isSome &&
  (rollingStdCell 7 close i).isSome &&
  (rollingMeanCell 14 close i).isSome &&
  (rollingStdCell 14 close i).isSome &&
  (rollingMeanCell 30 close i).isSome &&
  (rollingStdCell 30 close i).isSome

/-- The number of rows of `btc_data.dropna().reset_index(drop=True)`:
rows whose every enriched cell is defined. -/
def btc_enriched_count (bars : List Bar) : Nat :=
  ((List.range bars.length).filter (keptRow bars)).length

/-! ## Concrete inputs used by counterexamples and witnesses -/

/-- A strictly increasing 15-bar close series: every delta is a gain, so at
row 14 the rolling average loss over the complete 14-delta window is 0
while the rolling average gain is positive. -/
def c1closes : List ℚ := [1, 2, 3, 4, 5, 6, 7, 8, 9, 10, 11, 12, 13, 14, 15]

/-- Close series whose change from bar 1 to bar 2 starts inside the
near-ATH band (close 100 = ATH) but ends outside it (close 50). -/
def c3closes : List ℚ := [100, 100, 50]

/-- Two bars whose second close (50) is outside the near-ATH band, so no
percentage change survives the band restriction. -/
def c2dataA : List Bar := [⟨0, 100, 101, 99, 100, 0⟩, ⟨1, 50, 51, 49, 50, 0⟩]

/-- Same degenerate band, with the last timestamp three days before the
2024 halving date (day 19855). -/
def c2dataB : List Bar := [⟨19851, 100, 101, 99, 100, 0⟩, ⟨19852, 50, 51, 49, 50, 0⟩]

/-- A series whose last timestamp is exactly the 2024 halving date. -/
def c6dataEq : List Bar := [⟨19855, 100, 101, 99, 100, 0⟩]

/-- A series whose last timestamp is one day past the 2024 halving date. -/
def c6dataGt : List Bar := [⟨19856, 100, 101, 99, 100, 0⟩]

/-- Two bars; close rises from 100 to 110, so the single percentage change
is 1/10 and its ending bar is the all-time high. -/
def w4data : List Bar := [⟨0, 100, 101, 99, 100, 0⟩, ⟨1, 110, 111, 109, 110, 0⟩]

/-- A single bar with volatility `high - low = 2`. -/
def w5bars : List Bar := [⟨0, 100, 101, 99, 100, 0⟩]

/-- 31 bars with strictly increasing closes `1, …, 31`. -/
def c7bars : List Bar :=
  (List.range 31).map
    (fun i : Nat => ⟨(i : ℤ), (i : ℚ) + 1, (i : ℚ) + 1, (i : ℚ) + 1, (i : ℚ) + 1, 0⟩)

/-! ## Helper lemmas -/

lemma futureFrom_closed (a : ℚ) : ∀ (k : Nat) (s : ℚ),
    futureFrom (some s) (some a) k = (List.range (k + 1)).map (fun i => some (s * a ^ i))
  | 0, s => by simp [futureFrom, List.range_succ]
  | k + 1, s => by
    rw [futureFrom, show nanMul (some s) (some a) = some (s * a) from rfl,
      futureFrom_closed a k (s * a)]
    conv_rhs => rw [List.range_succ_eq_map, List.map_cons, List.map_map]
    congr 1
    · norm_num
    refine List.map_congr_left fun i _ => ?_
    simp only [Function.comp_apply, Nat.succ_eq_add_one, pow_succ]
    ring_nf

lemma arithFrom_closed (d : ℚ) : ∀ (k : Nat) (s : ℚ),
    arithFrom (some s) (some d) k =
      (List.range (k + 1)).map (fun i : Nat => some (s + (i : ℚ) * d))
  | 0, s => by simp [arithFrom, List.range_succ]
  | k + 1, s => by
    rw [arithFrom, show nanAdd (some s) (some d) = some (s + d) from rfl,
      arithFrom_closed d k (s + d)]
    conv_rhs => rw [List.range_succ_eq_map, List.map_cons, List.map_map]
    congr 1
    · norm_num
    refine List.map_congr_left fun i _ => ?_
    simp only [Function.comp_apply, Nat.succ_eq_add_one]
    push_cast
    ring_nf

lemma futureFrom_length (v r : Option ℚ) : ∀ k, (futureFrom v r k).length = k + 1 := by
  intro k
  induction k generalizing v with
  | zero => rfl
  | succ k ih => simp [futureFrom, ih]

lemma futureValues_closed (seed a : ℚ) (days : Nat) (h : 1 ≤ days) :
    futureValues seed (some a) days =
      (List.range days).map (fun i => some (seed * a ^ i)) := by
  unfold futureValues
  rw [show ((days : ℤ) - 1).toNat = days - 1 by omega, futureFrom_closed,
    Nat.sub_add_cancel h]

lemma mapM_ok {α β : Type} (f : α → Except String β) (g : α → β)
    (h : ∀ a, f a = Except.ok (g a)) (l : List α) :
    l.mapM f = Except.ok (l.map g) := by
  induction l with
  | nil => rfl
  | cons x xs ih =>
    rw [List.mapM_cons, h, ih]
    rfl

lemma max?_eq_of_mem_le {xs : List ℤ} {a : ℤ} (h1 : a ∈ xs) (h2 : ∀ b ∈ xs, b ≤ a) :
    xs.max? = some a := by
  haveI anti : Std.Antisymm ((· : ℤ) ≤ ·) := ⟨fun h h' => le_antisymm h h'⟩
  rw [List.max?_eq_some_iff (fun a => le_refl a) (fun a b => max_choice a b)
    (fun a b c => max_le_iff)]
  exact ⟨h1, h2⟩

lemma days_since_eq_zero {d : ℤ} (h : ∀ x ∈ halving_dates.map Prod.snd, d ≤ x) :
    days_since_last_halving d = 0 := by
  unfold days_since_last_halving
  have hnil : (halving_dates.map Prod.snd).filter (fun x => x < d) = [] := by
    rw [List.filter_eq_nil_iff]
    intro x hx
    simpa using not_lt.mpr (h x hx)
  rw [hnil]
  rfl

lemma days_since_eq_last {d L : ℤ} (hL : L ∈ halving_dates.map Prod.snd) (h1 : L < d)
    (h2 : ∀ x ∈ halving_dates.map Prod.snd, x < d → x ≤ L) :
    days_since_last_halving d = d - L := by
  unfold days_since_last_halving
  have hmax : ((halving_dates.map Prod.snd).filter (fun x => x < d)).max? = some L := by
    apply max?_eq_of_mem_le
    · rw [List.mem_filter]
      exact ⟨hL, by simpa using h1⟩
    · intro b hb
      rw [List.mem_filter] at hb
      exact h2 b hb.1 (by simpa using hb.2)
  rw [hmax]

lemma gains_nonneg (close : List ℚ) : ∀ x ∈ gains close, 0 ≤ x := by
  intro x hx
  unfold gains at hx
  rw [List.mem_map] at hx
  obtain ⟨i, _, rfl⟩ := hx
  match i with
  | 0 => exact le_refl 0
  | Nat.succ j =>
    dsimp only
    split
    · linarith
    · exact le_refl 0

lemma losses_nonneg (close : List ℚ) : ∀ x ∈ losses close, 0 ≤ x := by
  intro x hx
  unfold losses at hx
  rw [List.mem_map] at hx
  obtain ⟨i, _, rfl⟩ := hx
  match i with
  | 0 => exact le_refl 0
  | Nat.succ j =>
    dsimp only
    split
    · linarith
    · exact le_refl 0

lemma rollingMeanCell_nonneg {w : Nat} {xs : List ℚ} {i : Nat} {q : ℚ}
    (hx : ∀ x ∈ xs, 0 ≤ x) (h : rollingMeanCell w xs i = some q) : 0 ≤ q := by
  unfold rollingMeanCell at h
  split at h
  · rw [Option.some_inj] at h
    subst h
    refine div_nonneg (List.sum_nonneg ?_) (by positivity)
    intro x hxm
    exact hx x (List.take_subset _ _ (List.drop_subset _ _ hxm))
  · exact absurd h (by simp)

lemma isSome_rollingMeanCell (w : Nat) (xs : List ℚ) (i : Nat) :
    (rollingMeanCell w xs i).isSome = decide (w ≤ i + 1) := by
  unfold rollingMeanCell
  split <;> simp_all

lemma isSome_rollingStdCell (w : Nat) (xs : List ℚ) (i : Nat) :
    (rollingStdCell w xs i).isSome = decide (w ≤ i + 1) := by
  unfold rollingStdCell
  split <;> simp_all

lemma isSome_shiftCell (k : Nat) (xs : List ℚ) (i : Nat) :
    (shiftCell k xs i).isSome = (decide (k ≤ i) && decide (i - k < xs.length)) := by
  unfold shiftCell
  split
  · rename_i hik
    have hk : ¬ k ≤ i := by omega
    simp [hk]
  · rename_i hik
    have hk : k ≤ i := by omega
    rw [List.get?_eq_getElem?]
    rcases Nat.lt_or_ge (i - k) xs.length with h | h
    · rw [List.getElem?_eq_getElem h]
      simp [hk, h]
    · rw [List.getElem?_eq_none h]
      simp [hk, Nat.not_lt.mpr h]

lemma length_relative_strength_idx (close : List ℚ) (n : Nat) :
    (relative_strength_idx close n).length = close.length := by
  unfold relative_strength_idx
  rw [List.length_map, List.length_range]

lemma keptRow_iff (bars : List Bar) (i : Nat) (hi : i < bars.length) :
    keptRow bars i = true ↔ 30 ≤ i := by
  unfold keptRow
  have hlen : (bars.map Bar.close).length = bars.length := List.length_map _ _
  have hrsi : (((relative_strength_idx (bars.map Bar.close) 14).get? i)).isSome = true := by
    rw [List.get?_eq_getElem?, List.getElem?_eq_getElem]
    · rfl
    · rw [length_relative_strength_idx, hlen]
      exact hi
  have hi' : i < (bars.map Bar.close).length := by
    rw [hlen]
    exact hi
  have hi'' : i < (bars.map Bar.open').length := by
    rw [List.length_map]
    exact hi
  simp only [Bool.and_eq_true, isSome_rollingMeanCell, isSome_shiftCell,
    isSome_rollingStdCell, hrsi, decide_eq_true_eq, Bool.and_eq_true, true_and,
    and_true]
  omega

lemma length_filter_range_le (k n : Nat) :
    ((List.range n).filter (fun i => decide (k ≤ i))).length = n - k := by
  induction n with
  | zero => simp
  | succ n ih =>
    rw [List.range_succ, List.filter_append, List.length_append, ih]
    by_cases h : k ≤ n
    · rw [List.filter_cons, if_pos (by simpa using h)]
      simp only [List.filter_nil, List.length_cons, List.length_nil]
      omega
    · rw [List.filter_cons, if_neg (by simpa using h)]
      simp only [List.filter_nil, List.length_nil]
      omega

lemma btc_count_formula (bars : List Bar) : btc_enriched_count bars = bars.length - 30 := by
  unfold btc_enriched_count
  have hcong : (List.range bars.length).filter (keptRow bars) =
      (List.range bars.length).filter (fun i => decide (30 ≤ i)) := by
    apply List.filter_congr
    intro i hi
    rw [List.mem_range] at hi
    rcases h : keptRow bars i with _ | _
    · refine (decide_eq_false ?_).symm
      intro h30
      rw [(keptRow_iff bars i hi).mpr h30] at h
      cases h
    · exact (decide_eq_true ((keptRow_iff bars i hi).mp h)).symm
  rw [hcong, length_filter_range_le 30 bars.length]

lemma filterMap_pairs_zip (p : ℚ → Bool) (f : ℚ → ℚ → ℚ) :
    ∀ (xs : List ℚ) (prev : ℚ),
      ((List.range xs.length).filterMap fun j =>
          if p (xs.getD j 0) then some (f ((prev :: xs).getD j 0) (xs.getD j 0)) else none) =
        (((prev :: xs).zip xs).filter (fun q => p q.2)).map (fun q => f q.1 q.2)
  | [], _ => rfl
  | y :: ys, prev => by
    rw [List.length_cons, List.range_succ_eq_map, List.filterMap_cons, List.filterMap_map]
    have hrec :
        (List.filterMap
          ((fun j =>
            if p ((y :: ys).getD j 0) then
              some (f ((prev :: y :: ys).getD j 0) ((y :: ys).getD j 0))
            else none) ∘ Nat.succ) (List.range ys.length)) =
        ((List.range ys.length).filterMap fun j =>
          if p (ys.getD j 0) then some (f ((y :: ys).getD j 0) (ys.getD j 0)) else none) := rfl
    rw [hrec, filterMap_pairs_zip p f ys y]
    show _ = (((prev, y) :: ((y :: ys).zip ys)).filter (fun q => p q.2)).map (fun q => f q.1 q.2)
    rw [List.filter_cons]
    by_cases hp : p y
    · rw [if_pos (by simpa using hp)]
      simp only [List.getD_cons_zero, hp, List.map_cons]
      rfl
    · rw [if_neg (by simpa using hp)]
      simp only [List.getD_cons_zero, Bool.not_eq_true] at *
      simp only [hp]
      rfl

lemma at_high_pct_changes_eq_zip (close : List ℚ) :
    at_high_pct_changes close =
      ((close.zip close.tail).filter (fun q => nearATHBand close q.2)).map
        (fun q => q.2 / q.1 - 1) := by
  match close with
  | [] => rfl
  | c :: cs =>
    unfold at_high_pct_changes
    rw [List.length_cons, List.range_succ_eq_map, List.filterMap_cons, List.filterMap_map]
    have hrec :
        (List.filterMap
          ((fun i =>
            match i with
            | 0 => none
            | Nat.succ j =>
              if nearATHBand (c :: cs) ((c :: cs).getD (j + 1) 0) then
                some ((c :: cs).getD (j + 1) 0 / (c :: cs).getD j 0 - 1)
              else none) ∘ Nat.succ) (List.range cs.length)) =
        ((List.range cs.length).filterMap fun j =>
          if nearATHBand (c :: cs) (cs.getD j 0) then
            some ((fun a b => b / a - 1) ((c :: cs).getD j 0) (cs.getD j 0))
          else none) := rfl
    rw [hrec, filterMap_pairs_zip (nearATHBand (c :: cs)) (fun a b => b / a - 1) cs c]
    rfl

lemma filterMap_pairs_zip_fst (p : ℚ → Bool) (f : ℚ → ℚ → ℚ) :
    ∀ (xs : List ℚ) (prev : ℚ),
      ((List.range xs.length).filterMap fun j =>
          if p ((prev :: xs).getD j 0) then
            some (f ((prev :: xs).getD j 0) (xs.getD j 0))
          else none) =
        (((prev :: xs).zip xs).filter (fun q => p q.1)).map (fun q => f q.1 q.2)
  | [], _ => rfl
  | y :: ys, prev => by
    rw [List.length_cons, List.range_succ_eq_map, List.filterMap_cons, List.filterMap_map]
    have hrec :
        (List.filterMap
          ((fun j =>
            if p ((prev :: y :: ys).getD j 0) then
              some (f ((prev :: y :: ys).getD j 0) ((y :: ys).getD j 0))
            else none) ∘ Nat.succ) (List.range ys.length)) =
        ((List.range ys.length).filterMap fun j =>
          if p ((y :: ys).getD j 0) then
            some (f ((y :: ys).getD j 0) (ys.getD j 0))
          else none) := rfl
    rw [hrec, filterMap_pairs_zip_fst p f ys y]
    show _ = (((prev, y) :: ((y :: ys).zip ys)).filter (fun q => p q.1)).map (fun q => f q.1 q.2)
    rw [List.filter_cons]
    by_cases hp : p prev
    · rw [if_pos (by simpa using hp)]
      simp only [List.getD_cons_zero, hp, List.map_cons]
      rfl
    · rw [if_neg (by simpa using hp)]
      simp only [List.getD_cons_zero, Bool.not_eq_true] at *
      simp only [hp]
      rfl

lemma at_high_pct_changes_spec_eq_zip (close : List ℚ) :
    at_high_pct_changes_spec close =
      ((close.zip close.tail).filter (fun q => nearATHBand close q.1)).map
        (fun q => q.2 / q.1 - 1) := by
  match close with
  | [] => rfl
  | c :: cs =>
    unfold at_high_pct_changes_spec
    rw [List.length_cons, List.range_succ_eq_map, List.filterMap_cons, List.filterMap_map]
    have hrec :
        (List.filterMap
          ((fun i =>
            match i with
            | 0 => none
            | Nat.succ j =>
              if nearATHBand (c :: cs) ((c :: cs).getD j 0) then
                some ((c :: cs).getD (j + 1) 0 / (c :: cs).getD j 0 - 1)
              else none) ∘ Nat.succ) (List.range cs.length)) =
        ((List.range cs.length).filterMap fun j =>
          if nearATHBand (c :: cs) ((c :: cs).getD j 0) then
            some ((fun a b => b / a - 1) ((c :: cs).getD j 0) (cs.getD j 0))
          else none) := rfl
    rw [hrec, filterMap_pairs_zip_fst (nearATHBand (c :: cs)) (fun a b => b / a - 1) cs c]
    rfl

lemma band_at_max {close : List ℚ} (hpos : 0 < maxClose close) :
    nearATHBand close (maxClose close) = true := by
  unfold nearATHBand
  apply decide_eq_true
  linarith

lemma rsi_get? (close : List ℚ) (n i : Nat) (hi : i < close.length) :
    (relative_strength_idx close n).get? i = some (rsiCell close n i) := by
  unfold relative_strength_idx
  rw [List.get?_eq_getElem?, List.getElem?_map, List.getElem?_range hi, Option.map_some']

/-! ## Claims -/

/-- C1, counterexample.  The claim says: whenever the rolling average loss
over a complete 14-bar window is exactly 0, the RSI equals the neutral
value 50.  On the strictly increasing series `c1closes` the average loss at
row 14 is exactly 0, yet `relative_strength_idx` returns 100 there (pandas
computes `rs = avg_gain / 0 = inf`, so `rsi = 100`, which is not NaN and is
therefore untouched by `fillna(50)`). -/
theorem C1_counterexample :
    rollingMeanCell 14 (losses c1closes) 14 = some 0 ∧
    (relative_strength_idx c1closes 14).get? 14 = some 100 ∧ (100 : ℚ) ≠ 50 := by
  have hl : rollingMeanCell 14 (losses c1closes) 14 = some 0 := by
    norm_num [rollingMeanCell, losses, c1closes, List.range_succ]
  have hg : rollingMeanCell 14 (gains c1closes) 14 = some 1 := by
    norm_num [rollingMeanCell, gains, c1closes, List.range_succ]
  refine ⟨hl, ?_, by norm_num⟩
  rw [rsi_get? c1closes 14 14 (by norm_num [c1closes])]
  unfold rsiCell
  rw [hg, hl]
  norm_num

/-- C1, amended.  For every bar, when the rolling average loss over the
trailing window is exactly 0, the RSI returned by `relative_strength_idx`
is 50 only if the rolling average gain is also 0 (flat window); if the
average gain is nonzero the RSI is 100.  Only the incomplete-window bars
and the all-zero case receive the neutral fill 50. -/
theorem C1_amended_neutral_fill (close : List ℚ) (n i : Nat) (g : ℚ)
    (hi : i < close.length)
    (hg : rollingMeanCell n (gains close) i = some g)
    (hl : rollingMeanCell n (losses close) i = some 0) :
    (relative_strength_idx close n).get? i = some (if g = 0 then 50 else 100) := by
  rw [rsi_get? close n i hi]
  unfold rsiCell
  rw [hg, hl]
  norm_num

/-- Witness for the amended C1: on `c1closes` at row 14 the average gain is
1, the average loss is 0, and the RSI is 100. -/
theorem C1_amended_witness :
    (14 : Nat) < c1closes.length ∧
    rollingMeanCell 14 (gains c1closes) 14 = some 1 ∧
    rollingMeanCell 14 (losses c1closes) 14 = some 0 ∧
    (relative_strength_idx c1closes 14).get? 14 = some (if (1 : ℚ) = 0 then 50 else 100) := by
  have h14 : (14 : Nat) < c1closes.length := by norm_num [c1closes]
  have hg : rollingMeanCell 14 (gains c1closes) 14 = some 1 := by
    norm_num [rollingMeanCell, gains, c1closes, List.range_succ]
  have hl : rollingMeanCell 14 (losses c1closes) 14 = some 0 := by
    norm_num [rollingMeanCell, losses, c1closes, List.range_succ]
  exact ⟨h14, hg, hl, C1_amended_neutral_fill c1closes 14 14 1 h14 hg hl⟩

/-- C3, counterexample.  The claim says `avg_pct_change_at_high` averages
the percentage changes whose *starting* bar lies in the near-ATH band.  On
`c3closes = [100, 100, 50]` the code's average (ending-bar mask) is 0,
while the claimed starting-bar average is −1/4. -/
theorem C3_counterexample :
    avg_pct_change_at_high c3closes = some 0 ∧
    avg_pct_change_at_high_spec c3closes = some (-(1 / 4)) ∧
    avg_pct_change_at_high c3closes ≠ avg_pct_change_at_high_spec c3closes := by
  have h1 : avg_pct_change_at_high c3closes = some 0 := by
    rw [avg_pct_change_at_high, at_high_pct_changes_eq_zip]
    norm_num [c3closes, nearATHBand, maxClose, meanQ]
  have h2 : avg_pct_change_at_high_spec c3closes = some (-(1 / 4)) := by
    rw [avg_pct_change_at_high_spec, at_high_pct_changes_spec_eq_zip]
    norm_num [c3closes, nearATHBand, maxClose, meanQ]
  refine ⟨h1, h2, ?_⟩
  rw [h1, h2]
  intro h
  rw [Option.some_inj] at h
  norm_num at h

/-- C3, amended.  In both projection strategies,
`avg_pct_change_at_high` is the average of exactly those period-over-period
percentage changes of `close` whose *ending* bar (the later bar of the
pair) has a close inside the near-all-time-high band: the pandas boolean
mask is aligned on the index of the change, which labels the later bar. -/
theorem C3_amended_ending_bar (close : List ℚ) :
    avg_pct_change_at_high close =
      meanQ (((close.zip close.tail).filter (fun q => nearATHBand close q.2)).map
        (fun q => q.2 / q.1 - 1)) := by
  unfold avg_pct_change_at_high
  rw [at_high_pct_changes_eq_zip]

/-- C8.  `days_since_last_halving` returns 0 for every date at or before
the earliest reference date (only strictly earlier dates count), and for
two dates that fall after the same most-recent reference date (with no
reference date between the older of them and the later date), the
difference of the two results is exactly the day count between them. -/
theorem C8_days_since_reference :
    (∀ d : ℤ, (∀ x ∈ halving_dates.map Prod.snd, d ≤ x) →
      days_since_last_halving d = 0) ∧
    (∀ L d1 d2 : ℤ, L ∈ halving_dates.map Prod.snd → L < d1 → d1 < d2 →
      (∀ x ∈ halving_dates.map Prod.snd, x < d2 → x ≤ L) →
      days_since_last_halving d2 - days_since_last_halving d1 = d2 - d1) := by
  constructor
  · exact fun d h => days_since_eq_zero h
  · intro L d1 d2 hL h1 h12 hno
    rw [days_since_eq_last hL (lt_trans h1 h12) hno,
      days_since_eq_last hL h1 (fun x hx hxd => hno x hx (lt_trans hxd h12))]
    ring

/-- Witness for C8: day 15000 precedes the 2012 reference date, and days
18500 and 19000 both follow the 2020 reference date (18393) with no
reference date between them. -/
theorem C8_witness :
    days_since_last_halving 15000 = 0 ∧
    days_since_last_halving 19000 - days_since_last_halving 18500 = 19000 - 18500 :=
  ⟨C8_days_since_reference.1 15000 (by decide),
    C8_days_since_reference.2 18393 18500 19000 (by decide) (by decide) (by decide)
      (by decide)⟩

/-- C9.  Every value returned by `relative_strength_idx` lies in the
closed interval [0, 100]. -/
theorem C9_rsi_in_range (close : List ℚ) (n : Nat) (x : ℚ)
    (hx : x ∈ relative_strength_idx close n) : 0 ≤ x ∧ x ≤ 100 := by
  unfold relative_strength_idx at hx
  rw [List.mem_map] at hx
  obtain ⟨i, _, rfl⟩ := hx
  unfold rsiCell
  cases hg : rollingMeanCell n (gains close) i with
  | none =>
    cases hl : rollingMeanCell n (losses close) i <;>
      exact ⟨by norm_num, by norm_num⟩
  | some g =>
    cases hl : rollingMeanCell n (losses close) i with
    | none => exact ⟨by norm_num, by norm_num⟩
    | some l =>
      have hg0 : 0 ≤ g := rollingMeanCell_nonneg (gains_nonneg close) hg
      have hl0 : 0 ≤ l := rollingMeanCell_nonneg (losses_nonneg close) hl
      show 0 ≤ (if l = 0 then (if g = 0 then 50 else 100) else 100 - 100 / (1 + g / l)) ∧
        (if l = 0 then (if g = 0 then 50 else 100) else 100 - 100 / (1 + g / l)) ≤ 100
      by_cases hlz : l = 0
      · rw [if_pos hlz]
        by_cases hgz : g = 0
        · rw [if_pos hgz]
          exact ⟨by norm_num, by norm_num⟩
        · rw [if_neg hgz]
          exact ⟨by norm_num, by norm_num⟩
      · rw [if_neg hlz]
        have hlpos : 0 < l := lt_of_le_of_ne hl0 (Ne.symm hlz)
        have hrs : 0 ≤ g / l := div_nonneg hg0 hl0
        have h1 : (0 : ℚ) < 100 / (1 + g / l) := by positivity
        have h2 : 100 / (1 + g / l) ≤ 100 := by
          apply div_le_self (by norm_num)
          linarith
        exact ⟨by linarith, by linarith⟩

/-- Witness for C9: the RSI of a 2-bar series is the neutral fill 50,
which lies in [0, 100]. -/
theorem C9_witness :
    50 ∈ relative_strength_idx [1, 2] 14 ∧ (0 : ℚ) ≤ 50 ∧ (50 : ℚ) ≤ 100 := by
  have hmem : 50 ∈ relative_strength_idx [1, 2] 14 := by
    have : relative_strength_idx [1, 2] 14 = [50, 50] := by
      norm_num [relative_strength_idx, rsiCell, rollingMeanCell, List.range_succ]
    rw [this]
    exact List.mem_cons_self _ _
  exact ⟨hmem, C9_rsi_in_range [1, 2] 14 50 hmem⟩

/-- C10.  The strict band comparison `close > ath - 0.05 * ath` holds at
the all-time high itself whenever the maximum close is positive, so for
every series whose positive maximum close is attained at some bar after
the first, the band-restricted set of percentage changes is non-empty and
`avg_pct_change_at_high` is defined. -/
theorem C10_max_bar_in_band (close : List ℚ) (i : Nat) (hi1 : 1 ≤ i)
    (hatt : close.get? i = some (maxClose close)) (hpos : 0 < maxClose close) :
    nearATHBand close (maxClose close) = true ∧
    (avg_pct_change_at_high close).isSome = true := by
  have hband := band_at_max hpos
  refine ⟨hband, ?_⟩
  rw [List.get?_eq_getElem?] at hatt
  have hilen : i < close.length := by
    rcases List.getElem?_eq_some_iff.mp hatt with ⟨h, _⟩
    exact h
  obtain ⟨j, rfl⟩ : ∃ j, i = j + 1 := ⟨i - 1, by omega⟩
  have hD : close.getD (j + 1) 0 = maxClose close := by
    rw [List.getD_eq_getElem?_getD, hatt]
    rfl
  have hmem : (close.getD (j + 1) 0 / close.getD j 0 - 1) ∈ at_high_pct_changes close := by
    unfold at_high_pct_changes
    rw [List.mem_filterMap]
    refine ⟨j + 1, List.mem_range.mpr hilen, ?_⟩
    show (if nearATHBand close (close.getD (j + 1) 0)
      then some (close.getD (j + 1) 0 / close.getD j 0 - 1) else none) = _
    rw [hD, if_pos hband]
  have hne : ¬ ((at_high_pct_changes close).isEmpty = true) := by
    rw [List.isEmpty_eq_true]
    exact List.ne_nil_of_mem hmem
  unfold avg_pct_change_at_high meanQ
  rw [if_neg hne]
  rfl

/-- Witness for C10: in the series `[100, 110]` the maximum close 110 is
attained at bar 1, so the band holds at the maximum and the average is
defined. -/
theorem C10_witness :
    ([100, 110] : List ℚ).get? 1 = some (maxClose [100, 110]) ∧
    nearATHBand [100, 110] (maxClose [100, 110]) = true ∧
    (avg_pct_change_at_high [100, 110]).isSome = true := by
  have hmax : maxClose [100, 110] = (110 : ℚ) := by
    show List.foldl max (100 : ℚ) [110] = 110
    rw [List.foldl_cons, List.foldl_nil, max_eq_right (by norm_num)]
  have hatt : ([100, 110] : List ℚ).get? 1 = some (maxClose [100, 110]) := by
    rw [hmax, List.get?_eq_getElem?]
    rfl
  exact ⟨hatt,
    C10_max_bar_in_band [100, 110] 1 (by norm_num) hatt (by rw [hmax]; norm_num)⟩

/-- C4.  For every non-empty input series, requested feature list and
`days ≥ 1` (whenever the near-ATH average percentage change is defined),
`generate_future_features` returns exactly `days` rows of consecutive
daily timestamps starting the day after the last historical timestamp,
each feature column being the geometric sequence seeded by the feature's
last historical value with ratio `1 + avg_pct_change_at_high`. -/
theorem C4_fixed_horizon (data : List Bar) (features : List (Bar → ℚ)) (days : Nat)
    (lastBar : Bar) (hd : data.getLast? = some lastBar) (hdays : 1 ≤ days) (a : ℚ)
    (ha : avg_pct_change_at_high (data.map Bar.close) = some a) :
    generate_future_features data features days =
      Except.ok
        ((List.range days).map (fun i : Nat => lastBar.timestamp + 1 + (i : ℤ)),
          features.map (fun f =>
            (List.range days).map (fun i : Nat => some (f lastBar * (1 + a) ^ i)))) := by
  have hiloc : ilocLast data = Except.ok lastBar := by
    unfold ilocLast
    rw [hd]
  have hcol : ∀ seed : ℚ,
      setColumn days
        (futureValues seed
          ((avg_pct_change_at_high (data.map Bar.close)).map (fun a => 1 + a)) days) =
        Except.ok ((List.range days).map (fun i : Nat => some (seed * (1 + a) ^ i))) := by
    intro seed
    rw [ha, Option.map_some', futureValues_closed seed (1 + a) days hdays]
    unfold setColumn
    rw [if_pos (by rw [List.length_map, List.length_range])]
  have hmap := mapM_ok _ _ hcol (features.map (fun f => f lastBar))
  unfold generate_future_features
  simp only [hiloc, hmap, List.map_map]
  rfl

/-- Witness for C4: two bars with closes 100 and 110 and `days = 3`; the
average percentage change near the ATH is 1/10 and the projection is the
geometric sequence 110, 121, 133.1 on days 2, 3, 4. -/
theorem C4_witness :
    w4data.getLast? = some ⟨1, 110, 111, 109, 110, 0⟩ ∧
    avg_pct_change_at_high (w4data.map Bar.close) = some (1 / 10) ∧
    generate_future_features w4data [Bar.close] 3 =
      Except.ok
        ((List.range 3).map
            (fun i : Nat => (⟨1, 110, 111, 109, 110, 0⟩ : Bar).timestamp + 1 + (i : ℤ)),
          [Bar.close].map (fun f =>
            (List.range 3).map
              (fun i : Nat => some (f (⟨1, 110, 111, 109, 110, 0⟩ : Bar) * (1 + 1 / 10) ^ i)))) := by
  have hd : w4data.getLast? = some ⟨1, 110, 111, 109, 110, 0⟩ := rfl
  have ha : avg_pct_change_at_high (w4data.map Bar.close) = some (1 / 10) := by
    rw [avg_pct_change_at_high, at_high_pct_changes_eq_zip]
    norm_num [w4data, nearATHBand, maxClose, meanQ]
  exact ⟨hd, ha,
    C4_fixed_horizon w4data [Bar.close] 3 ⟨1, 110, 111, 109, 110, 0⟩ hd (by norm_num)
      (1 / 10) ha⟩

/-- C5.  Whenever the average volatility over the near-ATH band is defined,
the headline trajectory `estimated_future_prices` consists of exactly 2555
values, starts at the all-time-high close, and every consecutive
difference equals the constant increment `0.1 × ath_average_volatility`
(arithmetic, not compounding, growth). -/
theorem C5_headline_trajectory (bars : List Bar) (v : ℚ)
    (hv : ath_average_volatility bars = some v) :
    (estimated_future_prices bars).length = 2555 ∧
    (estimated_future_prices bars).get? 0 =
      some (some (maxClose (bars.map Bar.close))) ∧
    ∀ i : Nat, i + 1 < 2555 →
      ∃ p q : ℚ, (estimated_future_prices bars).get? i = some (some p) ∧
        (estimated_future_prices bars).get? (i + 1) = some (some q) ∧
        q - p = v * (1 / 10) := by
  have hc : estimated_future_prices bars =
      (List.range 2555).map
        (fun i : Nat => some (maxClose (bars.map Bar.close) + (i : ℚ) * (v * (1 / 10)))) := by
    unfold estimated_future_prices increment
    rw [hv, Option.map_some', arithFrom_closed]
  refine ⟨?_, ?_, ?_⟩
  · rw [hc, List.length_map, List.length_range]
  · rw [hc, List.get?_eq_getElem?, List.getElem?_map, List.getElem?_range (by norm_num),
      Option.map_some']
    norm_num
  · intro i hi1
    refine ⟨maxClose (bars.map Bar.close) + (i : ℚ) * (v * (1 / 10)),
      maxClose (bars.map Bar.close) + ((i : ℚ) + 1) * (v * (1 / 10)), ?_, ?_, by ring⟩
    · rw [hc, List.get?_eq_getElem?, List.getElem?_map, List.getElem?_range (by omega),
        Option.map_some']
    · rw [hc, List.get?_eq_getElem?, List.getElem?_map, List.getElem?_range hi1,
        Option.map_some']
      push_cast
      ring_nf

/-- Witness for C5: a single bar with `high − low = 2`; the increment is
0.2 and the trajectory starts at the maximum close 100. -/
theorem C5_witness :
    ath_average_volatility w5bars = some 2 ∧
    ((estimated_future_prices w5bars).length = 2555 ∧
      (estimated_future_prices w5bars).get? 0 =
        some (some (maxClose (w5bars.map Bar.close))) ∧
      ∀ i : Nat, i + 1 < 2555 →
        ∃ p q : ℚ, (estimated_future_prices w5bars).get? i = some (some p) ∧
          (estimated_future_prices w5bars).get? (i + 1) = some (some q) ∧
          q - p = 2 * (1 / 10)) := by
  have hv : ath_average_volatility w5bars = some 2 := by
    norm_num [ath_average_volatility, near_ath_data, w5bars, maxClose, meanQ, volatility]
  exact ⟨hv, C5_headline_trajectory w5bars 2 hv⟩

/-- C2, violated by the code.  The claim (and spec §4.4/§7) demands that a
series in which no percentage change survives the near-ATH band
restriction makes both projection functions fail with a clear error.  The
code instead silently returns a NaN-filled table: the mean over the empty
restriction is NaN, and every projected value after the first is NaN. -/
theorem C2_nan_propagation :
    avg_pct_change_at_high (c2dataA.map Bar.close) = none ∧
    generate_future_features c2dataA [Bar.close] 3 =
      Except.ok ([2, 3, 4], [[some 50, none, none]]) ∧
    generate_features_to_halving c2dataB [Bar.close] =
      Except.ok ([19853, 19854, 19855], [[some 50, none, none]]) := by
  have hA : avg_pct_change_at_high (c2dataA.map Bar.close) = none := by
    rw [avg_pct_change_at_high, at_high_pct_changes_eq_zip]
    norm_num [c2dataA, nearATHBand, maxClose, meanQ]
  have hB : avg_pct_change_at_high (c2dataB.map Bar.close) = none := by
    rw [avg_pct_change_at_high, at_high_pct_changes_eq_zip]
    norm_num [c2dataB, nearATHBand, maxClose, meanQ]
  refine ⟨hA, ?_, ?_⟩
  · unfold generate_future_features
    simp only [hA, Option.map_none']
    rfl
  · unfold generate_features_to_halving
    simp only [hB, Option.map_none']
    rfl

/-- C6, violated by the code.  The claim (and spec §4.4 Strategy B) says a
series whose last timestamp is at or past the 2024 reference date yields
an empty/non-positive horizon without crashing.  The code instead crashes:
at the reference date the zero-length date index mismatches the length-1
value list (pandas `ValueError`), and past it `pd.date_range` rejects the
negative period count. -/
theorem C6_crash_at_or_past_reference :
    generate_features_to_halving c6dataEq [Bar.close] =
      Except.error "Length of values does not match length of index" ∧
    generate_features_to_halving c6dataGt [Bar.close] =
      Except.error "Number of samples must be non-negative" :=
  ⟨rfl, rfl⟩

/-- C7, counterexample.  The claim says an N-bar input keeps exactly
`N − 29` enriched rows.  With 31 bars the final row count is 1, not
`31 − 29 = 2`: the lag-30 column is undefined on the first **30** rows. -/
theorem C7_counterexample :
    c7bars.length = 31 ∧ btc_enriched_count c7bars ≠ c7bars.length - 29 := by
  have hlen : c7bars.length = 31 := by
    unfold c7bars
    rw [List.length_map, List.length_range]
  refine ⟨hlen, ?_⟩
  rw [btc_count_formula, hlen]
  norm_num

/-- C7, amended.  After computing all derived columns and dropping rows
with any missing value, an N-bar input keeps exactly `N − 30` rows
(truncated subtraction: empty output for `N ≤ 30`); the binding lookback
is the lag-30 close column, undefined on rows 0–29. -/
theorem C7_amended_rowcount (bars : List Bar) :
    btc_enriched_count bars = bars.length - 30 :=
  btc_count_formula bars

end Btc
